import Mathlib

/-!
Verification of the text-safety core of the repository (unbabelizer):
the escape codec, the translation corrector, the bounded poller and the
edit/filter workflow of the PO-entry modal.  Strings are modelled as
List Char; each definition is a shallow embedding of the corresponding
Python function from src/unbabelizer/utils.py or
src/unbabelizer/modals/po_edit_sc.py.
-/

namespace Unbabelizer

/-! ### Escape codec (utils.py, escape_control_chars / unescape_control_chars) -/

/-- The character class of escape_control_chars:
the regex character class containing newline, carriage return, tab,
backspace, form feed, vertical tab, bell, backslash and the null byte. -/
def inControlClass (c : Char) : Bool :=
  c = '\n' ∨ c = '\x0d' ∨ c = '\t' ∨ c = '\x08' ∨ c = '\x0c' ∨
  c = '\x0b' ∨ c = '\x07' ∨ c = '\\' ∨ c = '\x00'

/-- The escape_map dictionary of escape_control_chars.replace_func. -/
def escapeMap (c : Char) : Option (List Char) :=
  if c = '\n' then some ['\\', 'n']
  else if c = '\x0d' then some ['\\', 'r']
  else if c = '\t' then some ['\\', 't']
  else if c = '\x08' then some ['\\', 'b']
  else if c = '\x0c' then some ['\\', 'f']
  else if c = '\x0b' then some ['\\', 'v']
  else if c = '\x07' then some ['\\', 'a']
  else if c = '\\' then some ['\\', '\\']
  else if c = '\x00' then some ['\\', '0']
  else none

/-- Lower-case hexadecimal digit character for a value below 16. -/
def hexDigitChar (n : Nat) : Char :=
  if n < 10 then Char.ofNat (48 + n) else Char.ofNat (87 + n)

/-- Hexadecimal digits of n, most significant first (fuel-bounded). -/
def hexDigitsAux : Nat → Nat → List Char → List Char
  | 0, _, acc => acc
  | fuel + 1, n, acc =>
    if n = 0 then acc else hexDigitsAux fuel (n / 16) (hexDigitChar (n % 16) :: acc)

/-- Python format f-string with format spec 02x applied to a code point:
lower-case hex, padded with zeros to width at least two. -/
def natToHexMin2 (n : Nat) : List Char :=
  let ds := hexDigitsAux 8 n []
  if 2 ≤ ds.length then ds else List.replicate (2 - ds.length) '0' ++ ds

/-- escape_control_chars.replace_func: the mapped two-character escape,
with the hex fallback escape_map.get default (dead for the character
class, kept for faithfulness). -/
def replaceFunc (c : Char) : List Char :=
  (escapeMap c).getD ('\\' :: 'x' :: natToHexMin2 c.toNat)

/-- Effect of the character-class re.sub of escape_control_chars on one
character: characters in the class go through replace_func, all others
pass through unchanged. -/
def escapeChar (c : Char) : List Char :=
  if inControlClass c then replaceFunc c else [c]

/-- escape_control_chars from utils.py: a character-class re.sub is a
per-character rewrite of the input. -/
def escape_control_chars : List Char → List Char
  | [] => []
  | c :: rest => escapeChar c ++ escape_control_chars rest

/-- The nine two-character escapes recognised by unescape_control_chars.replace,
keyed by the character after the backslash. -/
def escDecode (c : Char) : Option Char :=
  if c = 'n' then some '\n'
  else if c = 'r' then some '\x0d'
  else if c = 't' then some '\t'
  else if c = 'b' then some '\x08'
  else if c = 'f' then some '\x0c'
  else if c = 'v' then some '\x0b'
  else if c = 'a' then some '\x07'
  else if c = '0' then some '\x00'
  else if c = '\\' then some '\\'
  else none

/-- Hex-digit test matching the regex class 0-9a-fA-F. -/
def isHexDigit (c : Char) : Bool :=
  ('0' ≤ c ∧ c ≤ '9') ∨ ('a' ≤ c ∧ c ≤ 'f') ∨ ('A' ≤ c ∧ c ≤ 'F')

/-- Value of one hex digit, as used by int(esc, 16). -/
def hexVal (c : Char) : Nat :=
  if '0' ≤ c ∧ c ≤ '9' then c.toNat - 48
  else if 'a' ≤ c ∧ c ≤ 'f' then c.toNat - 97 + 10
  else if 'A' ≤ c ∧ c ≤ 'F' then c.toNat - 65 + 10
  else 0

/-- unescape_control_chars from utils.py.  The regex alternation tries the
nine two-character escapes, then the backslash-x escape with exactly two
hex digits; at a position where no alternative matches, the scanner
advances by one character.  The backslash-x alternative is listed first
here; this is equivalent to the source's alternation order because the
character x has no two-character escape (escDecode of x is none), so at a
backslash followed by x the source also reaches the hex alternative. -/
def unescape_control_chars : List Char → List Char
  | '\\' :: 'x' :: h1 :: h2 :: rest =>
    if isHexDigit h1 && isHexDigit h2 then
      Char.ofNat (16 * hexVal h1 + hexVal h2) :: unescape_control_chars rest
    else '\\' :: unescape_control_chars ('x' :: h1 :: h2 :: rest)
  | '\\' :: c :: rest =>
    match escDecode c with
    | some d => d :: unescape_control_chars rest
    | none => '\\' :: unescape_control_chars (c :: rest)
  | c :: rest => c :: unescape_control_chars rest
  | [] => []
termination_by l => l.length
decreasing_by all_goals (simp; try omega)

/-! ### Translation corrector (utils.py, correct_translation)

Each re.sub pass of correct_translation is embedded as a left-to-right
scanner.  Scanners that need lookahead carry the still-undecided prefix
as an explicit accumulator; on a failed match the whole pending prefix is
emitted, which is sound because (as argued branch by branch in the
comments) no match of the pattern can start inside it. -/

/-- Python re whitespace class (ASCII part), also used for str.strip. -/
def isPySpace (c : Char) : Bool :=
  c = ' ' ∨ c = '\t' ∨ c = '\n' ∨ c = '\x0d' ∨ c = '\x0b' ∨ c = '\x0c'

/-- Python str.strip: drop whitespace from both ends. -/
def pyStrip (s : List Char) : List Char :=
  ((s.dropWhile isPySpace).reverse.dropWhile isPySpace).reverse

/-- Scanner for re.findall of a brace-delimited token (an opening brace,
one or more non-closing-brace characters, a closing brace).  The first
argument is none when no token is open, and some acc when a token was
opened and acc holds the characters read since (reversed).  A token body
never contains a closing brace, and once an opening brace has no later
closing brace no further match exists at all, so returning no further
tokens at end of input inside an open token is exactly the regex
behaviour. -/
def findPhAux : Option (List Char) → List Char → List (List Char)
  | none, [] => []
  | none, '{' :: rest => findPhAux (some []) rest
  | none, _ :: rest => findPhAux none rest
  | some _, [] => []
  | some acc, '}' :: rest =>
    if acc = [] then findPhAux none rest
    else ('{' :: acc.reverse ++ ['}']) :: findPhAux none rest
  | some acc, c :: rest => findPhAux (some (c :: acc)) rest

/-- re.findall of the placeholder pattern over the msgid. -/
def findPlaceholders (msgid : List Char) : List (List Char) :=
  findPhAux none msgid

/-- Scanner for re.sub of the placeholder pattern with count 1: replace
the first brace-delimited token by ph, literally, and copy the rest
verbatim.  pend is none outside a candidate token and some acc inside
one (acc reversed).  An opening brace immediately followed by a closing
brace matches nothing (the body needs at least one character); the
closing brace cannot itself start a match, so both are emitted.  An open
candidate that reaches end of input means no closing brace remains, so
no match exists anywhere and the pending text is emitted unchanged. -/
def rfpAux (ph : List Char) : Option (List Char) → List Char → List Char
  | none, [] => []
  | none, '{' :: rest => rfpAux ph (some []) rest
  | none, c :: rest => c :: rfpAux ph none rest
  | some acc, [] => '{' :: acc.reverse
  | some acc, '}' :: rest =>
    if acc = [] then '{' :: '}' :: rfpAux ph none rest
    else ph ++ rest
  | some acc, c :: rest => rfpAux ph (some (c :: acc)) rest

/-- re.sub of the placeholder pattern with count 1 over the translation. -/
def replaceFirstPh (ph : List Char) (s : List Char) : List Char :=
  rfpAux ph none s

/-- Scanner for the whitespace-collapsing re.sub: a maximal run of
whitespace becomes a single space.  The flag records whether the previous
character was part of a run. -/
def collapseWsAux : Bool → List Char → List Char
  | _, [] => []
  | inRun, c :: rest =>
    if isPySpace c then
      if inRun then collapseWsAux true rest else ' ' :: collapseWsAux true rest
    else c :: collapseWsAux false rest

/-- The whitespace-collapsing pass of correct_translation. -/
def collapseWs (s : List Char) : List Char := collapseWsAux false s

/-- The punctuation class of the whitespace-before-punctuation re.sub. -/
def isPunct (c : Char) : Bool :=
  c = '.' ∨ c = ',' ∨ c = ';' ∨ c = ':' ∨ c = '!' ∨ c = '?' ∨ c = '%' ∨ c = ')'

/-- Scanner for the whitespace-before-punctuation re.sub: a whitespace
run directly followed by a punctuation character is replaced by the
punctuation character alone.  pend holds a pending whitespace run
(reversed).  If the character ending the run is not punctuation, no
match can start inside the run (every attempt inside it ends at the same
non-punctuation character), so the run is emitted unchanged. -/
def swbpAux (pend : List Char) : List Char → List Char
  | [] => pend.reverse
  | c :: rest =>
    if isPySpace c then swbpAux (c :: pend) rest
    else if isPunct c then c :: swbpAux [] rest
    else pend.reverse ++ c :: swbpAux [] rest

/-- The whitespace-before-punctuation pass of correct_translation. -/
def stripWsBeforePunct (s : List Char) : List Char := swbpAux [] s

/-- Scanner for the whitespace-after-opening-parenthesis re.sub: an
opening parenthesis followed by a whitespace run keeps only the
parenthesis.  The flag records that the previous character was an
opening parenthesis or whitespace swallowed after one. -/
def swapAux : Bool → List Char → List Char
  | _, [] => []
  | afterParen, c :: rest =>
    if afterParen ∧ isPySpace c then swapAux true rest
    else if c = '(' then '(' :: swapAux true rest
    else c :: swapAux false rest

/-- The whitespace-after-opening-parenthesis pass of correct_translation. -/
def stripWsAfterParen (s : List Char) : List Char := swapAux false s

/-- Python re word-character class (ASCII part). -/
def isWordChar (c : Char) : Bool := c.isAlphanum || c = '_'

/-- Scanner for the hyphen-joining re.sub: a whitespace run, a hyphen, an
optional whitespace run and a word character become the hyphen and the
word character.  s1 is a pending whitespace run, dashSeen records a
pending hyphen after it, s2 is a pending whitespace run after that
hyphen.  On failure the pending text is emitted; when the failing
character is a second hyphen and s2 is nonempty, a new match attempt can
start at the first character of s2, so s2 becomes the new pending run
(regex rescan from the earliest possible start).  In every other failing
case no match can start inside the pending text, because each inner
attempt runs into the same failing character. -/
def hjAux (s1 : List Char) (dashSeen : Bool) (s2 : List Char) : List Char → List Char
  | [] => if dashSeen then s1 ++ '-' :: s2 else s1
  | c :: rest =>
    if dashSeen then
      if isPySpace c then hjAux s1 true (s2 ++ [c]) rest
      else if isWordChar c then '-' :: c :: hjAux [] false [] rest
      else if c = '-' ∧ s2 ≠ [] then s1 ++ '-' :: hjAux s2 true [] rest
      else s1 ++ '-' :: s2 ++ c :: hjAux [] false [] rest
    else
      if isPySpace c then hjAux (s1 ++ [c]) false [] rest
      else if c = '-' ∧ s1 ≠ [] then hjAux s1 true [] rest
      else s1 ++ c :: hjAux [] false [] rest

/-- The hyphen-joining pass of correct_translation. -/
def hyphenJoin (s : List Char) : List Char := hjAux [] false [] s

/-- correct_translation from utils.py: the placeholder substitutions in
msgid order, then the four whitespace passes and the final strip. -/
def correct_translation (msgid translation : List Char) : List Char :=
  let placeholders := findPlaceholders msgid
  let t := placeholders.foldl (fun acc ph => replaceFirstPh ph acc) translation
  pyStrip (hyphenJoin (stripWsAfterParen (stripWsBeforePunct (collapseWs t))))

/-! ### Bounded poller (utils.py, wait_for_element)

The probe is a function from the invocation index to an optional result:
probe k is the outcome of the k-th call of query_func (none models an
exception).  Durations are exact rationals, mirroring the arithmetic the
loop performs on its total_time accumulator.  Since the source loop need
not terminate (for a non-positive interval), the embedding carries a fuel
counter consumed once per loop iteration; an outcome of diverge for every
fuel value models nontermination. -/

/-- Outcome of wait_for_element: a successful probe result together with
the index of the probe invocation that produced it, the ValueError raised
after the recorded number of probe invocations, or fuel exhaustion. -/
inductive PollOutcome (R : Type) where
  | found : R → Nat → PollOutcome R
  | timedOut : Nat → PollOutcome R
  | diverge : PollOutcome R
deriving DecidableEq, Repr

/-- The while loop of wait_for_element: while total_time < timeout, call
the probe; return its value on success, otherwise sleep and add interval
to total_time.  When the guard fails, raise (timedOut records how many
probe invocations were made). -/
def waitLoop {R : Type} (probe : Nat → Option R) (timeout interval : ℚ) :
    Nat → ℚ → Nat → PollOutcome R
  | attempt, totalTime, fuel =>
    if totalTime < timeout then
      match fuel with
      | 0 => .diverge
      | fuel' + 1 =>
        match probe attempt with
        | some r => .found r attempt
        | none => waitLoop probe timeout interval (attempt + 1) (totalTime + interval) fuel'
    else .timedOut attempt

/-- wait_for_element from utils.py: the loop starts with total_time zero
and the first probe invocation. -/
def wait_for_element {R : Type} (probe : Nat → Option R) (timeout interval : ℚ)
    (fuel : Nat) : PollOutcome R :=
  waitLoop probe timeout interval 0 0 fuel

/-- The message of the ValueError raised by wait_for_element. -/
def uiNotFoundMessage : List Char := "UI element not found within timeout".toList

/-! ### Edit/filter workflow (modals/po_edit_sc.py, POEditScreen)

The catalog entry is the polib.POEntry record restricted to the fields
the workflow touches.  Plural translations are a dictionary from the
plural index to the text, modelled as an association list with
insertion-order-preserving update, like a Python dict. -/

/-- The polib.POEntry fields used by POEditScreen.  comment stands for
the translator-comment field carrying the note and tag metadata. -/
structure POEntry where
  msgid : List Char
  msgid_plural : List Char
  msgstr : List Char
  msgstr_plural : List (Nat × List Char)
  comment : List Char
deriving DecidableEq, Repr

/-- Python dict item assignment on an association list: replace the
value of an existing key in place, or append a new binding. -/
def dictSet : List (Nat × List Char) → Nat → List Char → List (Nat × List Char)
  | [], i, v => [(i, v)]
  | (j, w) :: rest, i, v =>
    if i = j then (i, v) :: rest else (j, w) :: dictSet rest i v

/-- The state of one POEditScreen modal: the construction arguments
entry and idx, and the two input widgets.  A widget field of none means
the widget is not (yet) attached to the rendering tree, so querying it
fails. -/
structure ScreenState where
  entry : Option POEntry
  idx : Option Nat
  inputField : Option (List Char)
  commentField : Option (List Char)
deriving DecidableEq, Repr

/-- The value handed to dismiss when the modal closes: the update
dictionary with keys msgstr, tag and note (edit submit), the filter
pattern string (filter submit), or no value (cancel). -/
inductive DismissResult where
  | updated : List Char → List Char → List Char → DismissResult
  | filtered : List Char → DismissResult
  | cancelled : DismissResult
deriving DecidableEq, Repr

/-- Modelled from the spec: POFileEntryTag.REVIEWED.value, the reviewed
review-tag marker (types.py is not under src/; the spec, section 3, calls
this the Reviewed tag of an Updated result). -/
def reviewedTagValue : List Char := "reviewed".toList

/-- Modelled from the spec: Note(...).update_entry, the note-encoding
collaborator (types.py is not under src/).  Per spec sections 1 and 6 it
serializes a human note into the entry's comment field and touches
nothing else; the serialization format itself is opaque, so it is a
parameter enc. -/
def noteUpdateEntry (enc : List Char → List Char → List Char)
    (note : List Char) (e : POEntry) : POEntry :=
  { e with comment := enc note e.comment }

/-- Modelled from the spec: POFileEntryTag.REVIEWED.apply, the tagging
collaborator (types.py is not under src/).  Per spec sections 1 and 6 it
packs the reviewed marker into the entry's comment field and touches
nothing else; the packing itself is opaque, so it is a parameter tag. -/
def tagApplyReviewed (tag : List Char → List Char) (e : POEntry) : POEntry :=
  { e with comment := tag e.comment }

/-- Modelled from the spec: write_new_tcomment (declared in utils.py's
callers but not defined under src/).  Per spec section 4.4 it appends a
manual-edit marker with a timestamp to the entry's comment field and
touches nothing else; the marker text is opaque, so it is a parameter
mark. -/
def writeNewTcomment (mark : List Char → List Char) (e : POEntry) : POEntry :=
  { e with comment := mark e.comment }

/-- A field lookup through wait_for_element: the query function finds the
widget, or raises, identically on every invocation.  The source default
timeout is 5.0 seconds and the default interval 0.1 seconds, giving at
most 50 probe invocations; fuel 51 is enough for the loop to run to its
own verdict. -/
def waitForField {A : Type} (f : Option A) : Except (List Char) A :=
  match wait_for_element (fun _ => f) 5 (1 / 10) 51 with
  | .found a _ => .ok a
  | _ => .error uiNotFoundMessage

/-- POEditScreen.update_cell.  Mutations happen in place on the entry, so
the state component of the return value is meaningful even when the
second field lookup raises; the Except component carries the raised
ValueError or the dismiss value (none models the early return without a
dismiss when there is no entry). -/
def update_cell (enc : List Char → List Char → List Char)
    (tag mark : List Char → List Char) (st : ScreenState) :
    ScreenState × Except (List Char) (Option DismissResult) :=
  match st.entry with
  | none => (st, .ok none)
  | some entry =>
    match waitForField st.inputField with
    | .error e => (st, .error e)
    | .ok v =>
      let new_val := pyStrip v
      let orig_val := unescape_control_chars new_val
      let entry1 :=
        match st.idx with
        | none => { entry with msgstr := orig_val }
        | some i => { entry with msgstr_plural := dictSet entry.msgstr_plural i orig_val }
      let st1 := { st with entry := some entry1 }
      match waitForField st.commentField with
      | .error e => (st1, .error e)
      | .ok cv =>
        let comment_val := pyStrip cv
        let entry2 :=
          writeNewTcomment mark
            (tagApplyReviewed tag
              (noteUpdateEntry enc (unescape_control_chars comment_val) entry1))
        ({ st with entry := some entry2 },
          .ok (some (.updated new_val reviewedTagValue comment_val)))

/-- POEditScreen.filter_cells: read the input field, strip, dismiss with
the pattern string. -/
def filter_cells (st : ScreenState) :
    ScreenState × Except (List Char) (Option DismissResult) :=
  match waitForField st.inputField with
  | .error e => (st, .error e)
  | .ok v => (st, .ok (some (.filtered (pyStrip v))))

/-- POEditScreen.action_submit: filter_cells when there is no entry,
update_cell otherwise.  No exception handler is installed here; an error
from either branch propagates to the caller of the action. -/
def action_submit (enc : List Char → List Char → List Char)
    (tag mark : List Char → List Char) (st : ScreenState) :
    ScreenState × Except (List Char) (Option DismissResult) :=
  match st.entry with
  | none => filter_cells st
  | some _ => update_cell enc tag mark st

/-- POEditScreen.action_cancel: dismiss with no value; nothing is read
and nothing is written. -/
def action_cancel (st : ScreenState) :
    ScreenState × Except (List Char) (Option DismissResult) :=
  (st, .ok (some .cancelled))

/-! ### Notification guard (utils.py, NotifyException) -/

/-- An in-flight Python exception: its str message and, optionally, its
formatted traceback frames. -/
structure PyException where
  msg : List Char
  tb : Option (List (List Char))
deriving DecidableEq, Repr

/-- A call of NotifyProtocol.notify as issued by NotifyException. -/
structure Notification where
  message : List Char
  title : List Char
  severity : List Char
  timeout : Option ℚ
  markup : Bool
deriving DecidableEq, Repr

/-- The traceback part of the logger.error extra payload: the formatted
frames, or the fixed no-traceback marker. -/
inductive TracebackInfo where
  | frames : List (List Char) → TracebackInfo
  | noTraceback : TracebackInfo
deriving DecidableEq, Repr

/-- The logger.error record emitted by NotifyException. -/
structure LogRecord where
  message : List Char
  context : List Char
  error : List Char
  traceback : TracebackInfo
deriving DecidableEq, Repr

/-- NotifyException.__exit__ from utils.py: with an exception instance it
notifies with the formatted message, the error severity, no timeout and
markup disabled, logs the error with the traceback, and returns True
(suppressing the exception); with no exception it does nothing and
returns a falsy value. -/
def notifyExceptionExit (exc : Option PyException) :
    Option Notification × Option LogRecord × Bool :=
  match exc with
  | some e =>
    (some
      { message := "An error occurred: ".toList ++ e.msg
        title := "⛔ Unexpected Error".toList
        severity := "error".toList
        timeout := none
        markup := false },
     some
      { message := "An error occurred".toList
        context := "NotifyException.__exit__".toList
        error := e.msg
        traceback :=
          match e.tb with
          | some fs => .frames fs
          | none => .noTraceback },
     true)
  | none => (none, none, false)

/-! ### Specification-side definitions used for comparison -/

/-- The per-character encode table exactly as the spec words it (section
4.1): the eight control characters and the backslash each become their
fixed two-character escape, every other character passes through
unchanged, and no hex escape is ever produced. -/
def escapeCharSpec (c : Char) : List Char :=
  if c = '\n' then ['\\', 'n']
  else if c = '\x0d' then ['\\', 'r']
  else if c = '\t' then ['\\', 't']
  else if c = '\x08' then ['\\', 'b']
  else if c = '\x0c' then ['\\', 'f']
  else if c = '\x0b' then ['\\', 'v']
  else if c = '\x07' then ['\\', 'a']
  else if c = '\x00' then ['\\', '0']
  else if c = '\\' then ['\\', '\\']
  else [c]

/-- The spec-side encode: the per-character table applied over the
string. -/
def escapeSpec : List Char → List Char
  | [] => []
  | c :: rest => escapeCharSpec c ++ escapeSpec rest

/-- A printable character (ASCII), for the round-trip hypothesis. -/
def isPrintable (c : Char) : Bool := 32 ≤ c.toNat ∧ c.toNat ≤ 126

/-- There is no two-hex-digit sequence at the start of rest after an x:
the side condition under which a backslash-x pair is left unchanged. -/
def noHexAt (c : Char) (rest : List Char) : Prop :=
  ¬(c = 'x' ∧ ∃ h1 h2 rest2, rest = h1 :: h2 :: rest2 ∧ isHexDigit h1 ∧ isHexDigit h2)

/-! ### Helper lemmas -/

lemma escapeChar_eq_spec (c : Char) : escapeChar c = escapeCharSpec c := by
  by_cases h : inControlClass c
  · simp only [inControlClass, decide_eq_true_eq] at h
    rcases h with h | h | h | h | h | h | h | h | h <;> subst h <;> rfl
  · simp only [inControlClass, decide_eq_true_eq, not_or] at h
    obtain ⟨h1, h2, h3, h4, h5, h6, h7, h8, h9⟩ := h
    rw [escapeChar, if_neg]
    · rw [escapeCharSpec]
      simp [h1, h2, h3, h4, h5, h6, h7, h8, h9]
    · simp [inControlClass, h1, h2, h3, h4, h5, h6, h7, h8, h9]

lemma unescape_cons_ne (c : Char) (h : c ≠ '\\') (l : List Char) :
    unescape_control_chars (c :: l) = c :: unescape_control_chars l := by
  cases l with
  | nil => simp [unescape_control_chars]
  | cons d ds => simp [unescape_control_chars, h]

lemma unescape_two_char (e d : Char) (rest : List Char) (h : escDecode e = some d) :
    unescape_control_chars ('\\' :: e :: rest) = d :: unescape_control_chars rest := by
  have hx : e ≠ 'x' := by
    intro hex
    subst hex
    simp [escDecode] at h
  match rest with
  | [] => simp [unescape_control_chars, h]
  | [a] => simp [unescape_control_chars, h]
  | a :: b :: t => simp [unescape_control_chars, hx, h]

lemma unescape_escape_id (x : List Char) :
    unescape_control_chars (escape_control_chars x) = x := by
  induction x with
  | nil => simp [escape_control_chars, unescape_control_chars]
  | cons c rest ih =>
    show unescape_control_chars (escapeChar c ++ escape_control_chars rest) = c :: rest
    by_cases h : inControlClass c
    · have hmap : ∃ e, escapeChar c = ['\\', e] ∧ escDecode e = some c := by
        simp only [inControlClass, decide_eq_true_eq] at h
        rcases h with h | h | h | h | h | h | h | h | h <;> subst h <;>
          exact ⟨_, rfl, rfl⟩
      obtain ⟨e, he, hd⟩ := hmap
      rw [he]
      show unescape_control_chars ('\\' :: e :: escape_control_chars rest) = c :: rest
      rw [unescape_two_char e c _ hd, ih]
    · have hc : escapeChar c = [c] := by rw [escapeChar, if_neg h]
      have hne : c ≠ '\\' := by
        intro hb
        subst hb
        simp [inControlClass] at h
      rw [hc]
      show unescape_control_chars (c :: escape_control_chars rest) = c :: rest
      rw [unescape_cons_ne c hne, ih]

lemma lt_timeout_iff (timeout interval : ℚ) (hi : 0 < interval) (j : Nat) :
    (j : ℚ) * interval < timeout ↔ j < Nat.ceil (timeout / interval) := by
  rw [Nat.lt_ceil, lt_div_iff₀ hi]

lemma waitLoop_all_fail {R : Type} (probe : Nat → Option R) (timeout interval : ℚ)
    (hi : 0 < interval) (hall : ∀ k, probe k = none) :
    ∀ fuel attempt, Nat.ceil (timeout / interval) ≤ attempt + fuel →
      attempt ≤ Nat.ceil (timeout / interval) →
      waitLoop probe timeout interval attempt ((attempt : ℚ) * interval) fuel =
        .timedOut (Nat.ceil (timeout / interval)) := by
  intro fuel
  induction fuel with
  | zero =>
    intro attempt h1 h2
    have ha : attempt = Nat.ceil (timeout / interval) := by omega
    subst ha
    rw [waitLoop, if_neg]
    intro hlt
    exact absurd ((lt_timeout_iff timeout interval hi _).1 hlt) (by omega)
  | succ f ih =>
    intro attempt h1 h2
    rw [waitLoop]
    by_cases hlt : (attempt : ℚ) * interval < timeout
    · have haN : attempt < Nat.ceil (timeout / interval) :=
        (lt_timeout_iff timeout interval hi attempt).1 hlt
      rw [if_pos hlt]
      have hstep : (attempt : ℚ) * interval + interval = ((attempt + 1 : Nat) : ℚ) * interval := by
        push_cast
        ring
      simp only [hall attempt, hstep]
      exact ih (attempt + 1) (by omega) (by omega)
    · have haN : ¬attempt < Nat.ceil (timeout / interval) := fun hc =>
        hlt ((lt_timeout_iff timeout interval hi attempt).2 hc)
      rw [if_neg hlt]
      have ha : attempt = Nat.ceil (timeout / interval) := by omega
      rw [ha]

lemma waitLoop_immediate {R : Type} (probe : Nat → Option R) (r : R) (t i tt : ℚ)
    (attempt f : Nat) (h0 : tt < t) (hp : probe attempt = some r) :
    waitLoop probe t i attempt tt (f + 1) = .found r attempt := by
  rw [waitLoop, if_pos h0]
  simp [hp]

lemma waitLoop_first_success {R : Type} (probe : Nat → Option R) (r : R) (t i : ℚ)
    (hi : 0 ≤ i) :
    ∀ k fuel attempt, (∀ j, j < k → probe (attempt + j) = none) →
      probe (attempt + k) = some r → ((attempt + k : Nat) : ℚ) * i < t → k < fuel →
      waitLoop probe t i attempt ((attempt : ℚ) * i) fuel = .found r (attempt + k) := by
  intro k
  induction k with
  | zero =>
    intro fuel attempt _ hp hlt hf
    match fuel, hf with
    | f + 1, _ =>
      have h0 : (attempt : ℚ) * i < t := by simpa using hlt
      simpa using waitLoop_immediate probe r t i _ attempt f h0 (by simpa using hp)
  | succ k ih =>
    intro fuel attempt hfail hp hlt hf
    match fuel, hf with
    | f + 1, _ =>
      have h0 : (attempt : ℚ) * i < t := by
        calc (attempt : ℚ) * i ≤ ((attempt + (k + 1) : Nat) : ℚ) * i := by
              apply mul_le_mul_of_nonneg_right _ hi
              exact_mod_cast Nat.le_add_right attempt (k + 1)
          _ < t := hlt
      rw [waitLoop, if_pos h0]
      have hp0 : probe attempt = none := by simpa using hfail 0 (Nat.succ_pos k)
      have hstep : (attempt : ℚ) * i + i = ((attempt + 1 : Nat) : ℚ) * i := by
        push_cast
        ring
      simp only [hp0, hstep]
      have := ih f (attempt + 1) (fun j hj => by
          have := hfail (j + 1) (by omega)
          simpa [Nat.add_assoc, Nat.add_comm 1 j] using this)
        (by
          have : attempt + 1 + k = attempt + (k + 1) := by omega
          rw [this]
          exact hp)
        (by
          have : attempt + 1 + k = attempt + (k + 1) := by omega
          rw [this]
          exact hlt)
        (by omega)
      rw [this]
      congr 1
      omega

lemma waitLoop_no_diverge {R : Type} (probe : Nat → Option R) (t i : ℚ) (hi : 0 < i) :
    ∀ fuel attempt, Nat.ceil (t / i) ≤ attempt + fuel →
      waitLoop probe t i attempt ((attempt : ℚ) * i) fuel ≠ .diverge := by
  intro fuel
  induction fuel with
  | zero =>
    intro attempt h1
    rw [waitLoop, if_neg]
    · simp
    · intro hlt
      exact absurd ((lt_timeout_iff t i hi attempt).1 hlt) (by omega)
  | succ f ih =>
    intro attempt h1
    rw [waitLoop]
    by_cases hlt : (attempt : ℚ) * i < t
    · rw [if_pos hlt]
      match hp : probe attempt with
      | some r => simp
      | none =>
        have hstep : (attempt : ℚ) * i + i = ((attempt + 1 : Nat) : ℚ) * i := by
          push_cast
          ring
        simp only [hstep]
        exact ih (attempt + 1) (by omega)
    · rw [if_neg hlt]
      simp

lemma waitLoop_timedOut_count {R : Type} (probe : Nat → Option R) (t i : ℚ) (hi : 0 < i) :
    ∀ fuel attempt m, attempt ≤ Nat.ceil (t / i) →
      waitLoop probe t i attempt ((attempt : ℚ) * i) fuel = .timedOut m →
      m = Nat.ceil (t / i) := by
  intro fuel
  induction fuel with
  | zero =>
    intro attempt m h2 heq
    rw [waitLoop] at heq
    by_cases hlt : (attempt : ℚ) * i < t
    · rw [if_pos hlt] at heq
      exact absurd heq (by simp)
    · rw [if_neg hlt] at heq
      have haN : ¬attempt < Nat.ceil (t / i) := fun hc =>
        hlt ((lt_timeout_iff t i hi attempt).2 hc)
      have ha : attempt = Nat.ceil (t / i) := by omega
      cases heq
      omega
  | succ f ih =>
    intro attempt m h2 heq
    rw [waitLoop] at heq
    by_cases hlt : (attempt : ℚ) * i < t
    · have haN : attempt < Nat.ceil (t / i) := (lt_timeout_iff t i hi attempt).1 hlt
      rw [if_pos hlt] at heq
      match hp : probe attempt with
      | some r =>
        rw [hp] at heq
        exact absurd heq (by simp)
      | none =>
        rw [hp] at heq
        have hstep : (attempt : ℚ) * i + i = ((attempt + 1 : Nat) : ℚ) * i := by
          push_cast
          ring
        rw [hstep] at heq
        exact ih (attempt + 1) m (by omega) heq
    · rw [if_neg hlt] at heq
      have haN : ¬attempt < Nat.ceil (t / i) := fun hc =>
        hlt ((lt_timeout_iff t i hi attempt).2 hc)
      have ha : attempt = Nat.ceil (t / i) := by omega
      cases heq
      omega

lemma waitLoop_zero_interval {R : Type} (probe : Nat → Option R) (t : ℚ)
    (h0 : (0 : ℚ) < t) (hall : ∀ k, probe k = none) :
    ∀ fuel attempt, waitLoop probe t 0 attempt 0 fuel = .diverge := by
  intro fuel
  induction fuel with
  | zero =>
    intro attempt
    rw [waitLoop, if_pos h0]
  | succ f ih =>
    intro attempt
    rw [waitLoop, if_pos h0]
    simp only [hall attempt, add_zero]
    exact ih (attempt + 1)

lemma waitForField_some {A : Type} (a : A) : waitForField (some a) = .ok a := rfl

lemma waitForField_none {A : Type} : waitForField (A := A) none = .error uiNotFoundMessage := by
  have hN : Nat.ceil ((5 : ℚ) / (1 / 10)) = 50 := by norm_num
  have h0 : ((0 : Nat) : ℚ) * (1 / 10 : ℚ) = 0 := by norm_num
  have hrun := waitLoop_all_fail (R := A) (fun _ => none) 5 (1 / 10) (by norm_num)
    (fun _ => rfl) 51 0 (by rw [hN]; omega) (by rw [hN]; omega)
  rw [h0] at hrun
  unfold waitForField wait_for_element
  rw [hrun]

lemma unescape_fallback (c : Char) (rest : List Char) (h : escDecode c = none)
    (hh : noHexAt c rest) :
    unescape_control_chars ('\\' :: c :: rest) = '\\' :: c :: unescape_control_chars rest := by
  have hne : c ≠ '\\' := by
    intro hb
    subst hb
    simp [escDecode] at h
  by_cases hx : c = 'x'
  · subst hx
    match rest with
    | [] => simp [unescape_control_chars, escDecode, unescape_cons_ne 'x' (by decide)]
    | [a] => simp [unescape_control_chars, escDecode, unescape_cons_ne 'x' (by decide)]
    | a :: b :: t =>
      have hab : (isHexDigit a && isHexDigit b) = false := by
        rw [Bool.and_eq_false_iff]
        by_cases ha : isHexDigit a
        · right
          by_cases hb2 : isHexDigit b
          · exact absurd ⟨rfl, a, b, t, rfl, ha, hb2⟩ hh
          · exact Bool.not_eq_true _ ▸ hb2
        · left
          exact Bool.not_eq_true _ ▸ ha
      simp [unescape_control_chars, hab, unescape_cons_ne 'x' (by decide)]
  · match rest with
    | [] => simp [unescape_control_chars, h, unescape_cons_ne c hne]
    | [a] => simp [unescape_control_chars, h, hx, unescape_cons_ne c hne]
    | a :: b :: t => simp [unescape_control_chars, h, hx, unescape_cons_ne c hne]

/-! ### Claim theorems -/

/-- C2: for every string composed only of the eight recognized control
characters, printable characters, and backslashes, decoding the encoding
gives back the original string.  (The hypothesis is the claim's
restriction; the underlying lemma shows the round trip in fact holds for
every string, so the restriction is sufficient but not needed.) -/
theorem escape_unescape_roundtrip (x : List Char)
    (_h : ∀ c ∈ x, inControlClass c ∨ isPrintable c) :
    unescape_control_chars (escape_control_chars x) = x :=
  unescape_escape_id x

theorem escape_unescape_roundtrip_witness :
    (∀ c ∈ ('H' :: 'i' :: '\n' :: '\t' :: '\\' :: []), inControlClass c ∨ isPrintable c) ∧
    unescape_control_chars (escape_control_chars ('H' :: 'i' :: '\n' :: '\t' :: '\\' :: [])) =
      'H' :: 'i' :: '\n' :: '\t' :: '\\' :: [] :=
  ⟨by decide, escape_unescape_roundtrip _ (by decide)⟩

/-- C5: escape_control_chars replaces exactly the eight recognized
control characters and the backslash, each by its fixed two-character
escape, passes every other character through unchanged (including other
non-printable bytes), and never emits a backslash-x hex escape: it
coincides with the spec-side per-character table escapeCharSpec, which
never produces one. -/
theorem escape_follows_spec (s : List Char) : escape_control_chars s = escapeSpec s := by
  induction s with
  | nil => rfl
  | cons c rest ih => simp [escape_control_chars, escapeSpec, escapeChar_eq_spec, ih]

/-- C6: unescape_control_chars maps each of the nine recognized
two-character escapes (those with an escDecode entry: backslash-n, -r,
-t, -b, -f, -v, -a, -0 and the doubled backslash) to its character,
converts a backslash-x escape with two hex digits to the character with
that code point, and leaves every other backslash-prefixed pair
unchanged.  It is a total function by construction. -/
theorem unescape_recognizes_escapes :
    (∀ e d rest, escDecode e = some d →
      unescape_control_chars ('\\' :: e :: rest) = d :: unescape_control_chars rest) ∧
    (∀ h1 h2 rest, isHexDigit h1 → isHexDigit h2 →
      unescape_control_chars ('\\' :: 'x' :: h1 :: h2 :: rest) =
        Char.ofNat (16 * hexVal h1 + hexVal h2) :: unescape_control_chars rest) ∧
    (∀ c rest, escDecode c = none → noHexAt c rest →
      unescape_control_chars ('\\' :: c :: rest) = '\\' :: c :: unescape_control_chars rest) := by
  refine ⟨unescape_two_char, ?_, unescape_fallback⟩
  intro h1 h2 rest hh1 hh2
  simp [unescape_control_chars, hh1, hh2]

/-- C4: for a probe that fails on every invocation and a positive
interval, wait_for_element raises the ValueError exactly when the
accumulated total_time reaches the timeout and not before: the loop makes
exactly ceil(timeout/interval) probe invocations, each started while the
accumulated time was still below the timeout, and then surfaces the
timedOut outcome, whose accumulated time is at least the timeout. -/
theorem poller_timeout_exact {R : Type} (probe : Nat → Option R) (timeout interval : ℚ)
    (fuel : Nat) (hall : ∀ k, probe k = none) (hi : 0 < interval)
    (hfuel : Nat.ceil (timeout / interval) ≤ fuel) :
    wait_for_element probe timeout interval fuel =
      .timedOut (Nat.ceil (timeout / interval)) ∧
    timeout ≤ (Nat.ceil (timeout / interval) : ℚ) * interval ∧
    ∀ j < Nat.ceil (timeout / interval), (j : ℚ) * interval < timeout := by
  refine ⟨?_, ?_, fun j hj => (lt_timeout_iff timeout interval hi j).2 hj⟩
  · have h0 : ((0 : Nat) : ℚ) * interval = 0 := by simp
    have hrun := waitLoop_all_fail probe timeout interval hi hall fuel 0 (by omega) (by omega)
    rw [h0] at hrun
    exact hrun
  · by_contra hc
    have := (lt_timeout_iff timeout interval hi _).1 (not_le.1 hc)
    omega

theorem poller_timeout_exact_witness :
    wait_for_element (fun _ => (none : Option Nat)) (1 / 20) (1 / 100) 5 =
      .timedOut (Nat.ceil ((1 / 20 : ℚ) / (1 / 100))) ∧
    (1 / 20 : ℚ) ≤ (Nat.ceil ((1 / 20 : ℚ) / (1 / 100)) : ℚ) * (1 / 100) ∧
    ∀ j < Nat.ceil ((1 / 20 : ℚ) / (1 / 100)), (j : ℚ) * (1 / 100) < (1 / 20 : ℚ) :=
  poller_timeout_exact (fun _ => (none : Option Nat)) (1 / 20) (1 / 100) 5
    (fun _ => rfl) (by norm_num) (by norm_num)

/-- C10: for every probe and positive interval the poller terminates; it
invokes the probe immediately (a successful first probe returns at once,
whatever the interval), returns the first successful probe result, and
otherwise raises after exactly ceil(timeout/interval) probe invocations
(in particular at most that many).  The positivity of the interval is
necessary: with interval zero and an always-failing probe the accumulated
time never increases, and the loop diverges for every fuel bound. -/
theorem poller_terminates :
    (∀ (R : Type) (probe : Nat → Option R) (r : R) (t i : ℚ) (fuel : Nat),
      0 < t → probe 0 = some r →
      wait_for_element probe t i (fuel + 1) = .found r 0) ∧
    (∀ (R : Type) (probe : Nat → Option R) (r : R) (k : Nat) (t i : ℚ) (fuel : Nat),
      0 ≤ i → (∀ j < k, probe j = none) → probe k = some r → (k : ℚ) * i < t →
      k < fuel → wait_for_element probe t i fuel = .found r k) ∧
    (∀ (R : Type) (probe : Nat → Option R) (t i : ℚ) (fuel : Nat),
      0 < i → Nat.ceil (t / i) ≤ fuel →
      wait_for_element probe t i fuel ≠ .diverge) ∧
    (∀ (R : Type) (probe : Nat → Option R) (t i : ℚ) (fuel m : Nat),
      0 < i → wait_for_element probe t i fuel = .timedOut m →
      m ≤ Nat.ceil (t / i)) ∧
    (∀ (R : Type) (probe : Nat → Option R) (t : ℚ),
      (∀ k, probe k = none) → 0 < t → ∀ fuel,
      wait_for_element probe t 0 fuel = .diverge) := by
  refine ⟨?_, ?_, ?_, ?_, ?_⟩
  · intro R probe r t i fuel h0 hp
    exact waitLoop_immediate probe r t i 0 0 fuel h0 hp
  · intro R probe r k t i fuel hi hfail hp hlt hf
    have hrun := waitLoop_first_success probe r t i hi k fuel 0
      (fun j hj => by simpa using hfail j hj) (by simpa using hp) (by simpa using hlt) hf
    have h0 : ((0 : Nat) : ℚ) * i = 0 := by simp
    rw [h0] at hrun
    simpa using hrun
  · intro R probe t i fuel hi hfuel
    have h0 : ((0 : Nat) : ℚ) * i = 0 := by simp
    have hrun := waitLoop_no_diverge probe t i hi fuel 0 (by omega)
    rw [h0] at hrun
    exact hrun
  · intro R probe t i fuel m hi heq
    have h0 : ((0 : Nat) : ℚ) * i = 0 := by simp
    refine le_of_eq (waitLoop_timedOut_count probe t i hi fuel 0 m (Nat.zero_le _) ?_)
    rw [h0]
    exact heq
  · intro R probe t hall h0 fuel
    exact waitLoop_zero_interval probe t h0 hall fuel 0

theorem poller_terminates_witness :
    wait_for_element (fun _ => some (7 : Nat)) 1 (1 / 10) 3 = .found 7 0 ∧
    wait_for_element (fun k => if k < 2 then none else some (7 : Nat)) 1 (1 / 100) 200 =
      .found 7 2 ∧
    wait_for_element (fun _ => (none : Option Nat)) 1 0 9 = .diverge :=
  ⟨poller_terminates.1 Nat (fun _ => some 7) 7 1 (1 / 10) 2 (by norm_num) rfl,
   poller_terminates.2.1 Nat (fun k => if k < 2 then none else some (7 : Nat)) 7 2 1 (1 / 100)
     200 (by norm_num) (fun j hj => by simp [hj]) rfl (by norm_num) (by norm_num),
   poller_terminates.2.2.2.2 Nat (fun _ => none) 1 (fun _ => rfl) (by norm_num) 9⟩

theorem unescape_recognizes_escapes_witness :
    unescape_control_chars ('\\' :: 'n' :: []) = '\n' :: unescape_control_chars [] ∧
    unescape_control_chars ('\\' :: 'x' :: '4' :: '1' :: []) =
      Char.ofNat (16 * hexVal '4' + hexVal '1') :: unescape_control_chars [] ∧
    unescape_control_chars ('\\' :: 'q' :: []) = '\\' :: 'q' :: unescape_control_chars [] :=
  ⟨unescape_recognizes_escapes.1 'n' '\n' [] (by decide),
   unescape_recognizes_escapes.2.1 '4' '1' [] (by decide) (by decide),
   unescape_recognizes_escapes.2.2 'q' [] (by decide) (fun hC => absurd hC.1 (by decide))⟩

/-- C1 (code evaluation at the failing input): on the spec's own example
the placeholder pass does not replace the first remaining unconsumed
token.  Each substitution replaces the first token of the current string,
so the token written by the previous round is overwritten again: the
result keeps the mistranslated second token and carries the last msgid
token in the first position, instead of the claimed
"Encontrados {count} elementos en {place}". -/
theorem correct_translation_example_eval :
    correct_translation "Found {count} items in {place}".toList
        "Encontrados {cnt} elementos en {lugar}".toList =
      "Encontrados {place} elementos en {lugar}".toList ∧
    correct_translation "Found {count} items in {place}".toList
        "Encontrados {cnt} elementos en {lugar}".toList ≠
      "Encontrados {count} elementos en {place}".toList := by
  constructor
  · decide
  · decide

/-- C3: on edit-mode submit with both fields present, update_cell writes
the decoded trimmed field text into the singular translation (plural
index none) or into plural slot i (plural index i), leaving the other
translation fields unchanged, and dismisses with the trimmed
still-escaped field text, the Reviewed tag value and the trimmed
still-escaped note text.  The equalities hold verbatim for every field
text, so no translation correction pass is applied to it. -/
theorem update_cell_submits (enc : List Char → List Char → List Char)
    (tag mark : List Char → List Char) (st : ScreenState) (entry : POEntry)
    (txt ctxt : List Char) (he : st.entry = some entry)
    (hf : st.inputField = some txt) (hc : st.commentField = some ctxt) :
    ∃ e' : POEntry,
      update_cell enc tag mark st =
        ({ st with entry := some e' },
          .ok (some (.updated (pyStrip txt) reviewedTagValue (pyStrip ctxt)))) ∧
      (st.idx = none →
        e'.msgstr = unescape_control_chars (pyStrip txt) ∧
        e'.msgstr_plural = entry.msgstr_plural) ∧
      (∀ i, st.idx = some i →
        e'.msgstr = entry.msgstr ∧
        e'.msgstr_plural = dictSet entry.msgstr_plural i
          (unescape_control_chars (pyStrip txt))) := by
  cases hidx : st.idx with
  | none =>
    refine ⟨writeNewTcomment mark (tagApplyReviewed tag (noteUpdateEntry enc
      (unescape_control_chars (pyStrip ctxt))
      { entry with msgstr := unescape_control_chars (pyStrip txt) })), ?_, ?_, ?_⟩
    · simp [update_cell, he, hf, hc, hidx, waitForField_some]
    · intro _
      simp [writeNewTcomment, tagApplyReviewed, noteUpdateEntry]
    · intro i hi
      exact absurd hi (by simp)
  | some i =>
    refine ⟨writeNewTcomment mark (tagApplyReviewed tag (noteUpdateEntry enc
      (unescape_control_chars (pyStrip ctxt))
      { entry with
        msgstr_plural := dictSet entry.msgstr_plural i (unescape_control_chars (pyStrip txt)) })),
      ?_, ?_, ?_⟩
    · simp [update_cell, he, hf, hc, hidx, waitForField_some]
    · intro hnone
      exact absurd hnone (by simp)
    · intro j hj
      cases hj
      simp [writeNewTcomment, tagApplyReviewed, noteUpdateEntry]

theorem update_cell_submits_witness :
    ∃ e' : POEntry,
      update_cell (fun n c => n ++ c) id id
        (⟨some ⟨"Hi {name}".toList, [], [], [], []⟩, none,
          some "Hola {nom}".toList, some "checked".toList⟩ : ScreenState) =
        ((⟨some e', none, some "Hola {nom}".toList, some "checked".toList⟩ : ScreenState),
          .ok (some (.updated (pyStrip "Hola {nom}".toList) reviewedTagValue
            (pyStrip "checked".toList)))) ∧
      ((none : Option Nat) = none →
        e'.msgstr = unescape_control_chars (pyStrip "Hola {nom}".toList) ∧
        e'.msgstr_plural = []) ∧
      (∀ i : Nat, (none : Option Nat) = some i →
        e'.msgstr = [] ∧
        e'.msgstr_plural = dictSet [] i
          (unescape_control_chars (pyStrip "Hola {nom}".toList))) :=
  update_cell_submits (fun n c => n ++ c) id id _
    ⟨"Hi {name}".toList, [], [], [], []⟩ "Hola {nom}".toList "checked".toList rfl rfl rfl

/-- C7: for every modal state the cancel action leaves the state (in
particular the catalog entry with all its translations and its comment)
untouched, reads neither input field (the outcome is the same whatever
their contents or availability), and closes with the cancelled dismiss
value. -/
theorem cancel_leaves_state_unchanged (st : ScreenState) :
    (action_cancel st).1 = st ∧
    (action_cancel st).2 = .ok (some .cancelled) :=
  ⟨rfl, rfl⟩

/-- C8: in filter mode (no entry) a submit with the field available
closes with the filtered dismiss value carrying the trimmed field text
verbatim — unescape_control_chars is not applied to it, as the equality
holds for every field text including ones that contain escape
sequences — and the state, in particular the absent entry, is unchanged. -/
theorem filter_submit (enc : List Char → List Char → List Char)
    (tag mark : List Char → List Char) (st : ScreenState) (txt : List Char)
    (he : st.entry = none) (hf : st.inputField = some txt) :
    action_submit enc tag mark st = (st, .ok (some (.filtered (pyStrip txt)))) := by
  have h1 : filter_cells st = (st, .ok (some (.filtered (pyStrip txt)))) := by
    simp [filter_cells, hf, waitForField_some]
  simp [action_submit, he, h1]

theorem filter_submit_witness :
    action_submit (fun n _ => n) id id
      (⟨none, none, some "file*.po".toList, none⟩ : ScreenState) =
      ((⟨none, none, some "file*.po".toList, none⟩ : ScreenState),
        .ok (some (.filtered (pyStrip "file*.po".toList)))) :=
  filter_submit (fun n _ => n) id id _ "file*.po".toList rfl rfl

/-- C9 (counterexample): an exception raised while the workflow is
active is not caught by the notification guard.  With an entry present
and the translation input not yet attached, the submit action ends with
the poller's ValueError surfaced to its caller as an error — no guard
suppressed it inside the workflow, contradicting the claim that every
exception in the active workflow is caught and suppressed. -/
theorem submit_error_uncaught :
    (action_submit (fun n _ => n) id id
      (⟨some ⟨"Hi".toList, [], [], [], []⟩, none, none, none⟩ : ScreenState)).2 =
      .error uiNotFoundMessage := by
  simp [action_submit, update_cell, waitForField_none]

/-- C9 (amended): the NotifyException guard itself behaves as claimed —
on any exception it emits one notification whose message carries the
exception text, with markup disabled and no auto-dismiss timeout, logs a
record carrying the error and its traceback, and returns True so the
exception is suppressed — but the edit/filter workflow's submit path is
not wrapped in the guard, so an exception raised there (for instance the
poller's ValueError) propagates to the caller of the action instead of
being caught. -/
theorem notify_guard_behaviour :
    (∀ e : PyException,
      (notifyExceptionExit (some e)).2.2 = true ∧
      ∃ n : Notification,
        (notifyExceptionExit (some e)).1 = some n ∧
        n.message = "An error occurred: ".toList ++ e.msg ∧
        n.severity = "error".toList ∧
        n.timeout = none ∧
        n.markup = false ∧
      ∃ l : LogRecord,
        (notifyExceptionExit (some e)).2.1 = some l ∧
        l.error = e.msg ∧
        l.traceback = (match e.tb with
          | some fs => .frames fs
          | none => .noTraceback)) ∧
    (∀ (enc : List Char → List Char → List Char) (tag mark : List Char → List Char)
      (st : ScreenState) (entry : POEntry), st.entry = some entry →
      st.inputField = none →
      (action_submit enc tag mark st).2 = .error uiNotFoundMessage) := by
  constructor
  · intro e
    exact ⟨rfl, _, rfl, rfl, rfl, rfl, rfl, _, rfl, rfl, rfl⟩
  · intro enc tag mark st entry he hf
    simp [action_submit, update_cell, he, hf, waitForField_none]

theorem notify_guard_behaviour_witness :
    ((notifyExceptionExit (some { msg := "boom".toList, tb := none })).2.2 = true ∧
      ∃ n : Notification,
        (notifyExceptionExit (some { msg := "boom".toList, tb := none })).1 = some n ∧
        n.message = "An error occurred: ".toList ++ "boom".toList ∧
        n.severity = "error".toList ∧
        n.timeout = none ∧
        n.markup = false ∧
      ∃ l : LogRecord,
        (notifyExceptionExit (some { msg := "boom".toList, tb := none })).2.1 = some l ∧
        l.error = "boom".toList ∧
        l.traceback = TracebackInfo.noTraceback) ∧
    (action_submit (fun n _ => n) id id
      (⟨some ⟨[], [], [], [], []⟩, some 0, none, some []⟩ : ScreenState)).2 =
      .error uiNotFoundMessage :=
  ⟨notify_guard_behaviour.1 { msg := "boom".toList, tb := none },
   notify_guard_behaviour.2 (fun n _ => n) id id _ ⟨[], [], [], [], []⟩ rfl rfl⟩

end Unbabelizer
